import Mathlib

/-!
# Verification of the http-cache decision engine

A shallow embedding of the cache policy layer described in the project's
specification, together with proofs of its behavioural properties.  The
repository's visible sources (`http-cache-tests/src/client_surf.rs`) only
exercise the engine from outside through an HTTP client, so the engine's
data model and operations are modelled from the specification's own words
(each such definition says so in its doc comment); the test scenarios are
mirrored by the concrete witnesses.
-/

namespace HttpCache

/-! ## Basic wire-level data -/

/-- An ordered header list, preserving receipt order (§3 StoredEntry). -/
abbrev Headers := List (String × String)

/-- Modelled from the spec: an already-formed request (§1) — method, URL and
headers.  Transport concerns are out of scope. -/
structure Request where
  method : String
  url : String
  headers : Headers
deriving DecidableEq

/-- Modelled from the spec: a response — status code, ordered headers, body
bytes. -/
structure Response where
  status : Nat
  headers : Headers
  body : List Nat
deriving DecidableEq

/-- Modelled from the spec (§3): a CacheKey is an immutable tuple of
(HTTP method, canonicalized URL); equality defines entry identity. -/
structure CacheKey where
  method : String
  url : String
deriving DecidableEq

/-- Modelled from the spec (§4.1): the CacheKey Builder derives the canonical
key from method + URL.  Requests in this model carry already-canonical URLs,
so canonicalization is the identity here. -/
def buildKey (req : Request) : CacheKey :=
  ⟨req.method, req.url⟩

/-! ## Header parsing helpers (character level, executable) -/

/-- Split a character list at commas. -/
def splitCommaAux : List Char → List Char → List (List Char)
  | [], acc => [acc.reverse]
  | c :: cs, acc =>
    if c = ',' then acc.reverse :: splitCommaAux cs []
    else splitCommaAux cs (c :: acc)

/-- Strip leading and trailing spaces. -/
def trimChars (cs : List Char) : List Char :=
  ((cs.dropWhile (fun c => c = ' ')).reverse.dropWhile (fun c => c = ' ')).reverse

/-- The decimal value of a digit character, if it is one. -/
def digitVal (c : Char) : Option Nat :=
  if '0' ≤ c ∧ c ≤ '9' then some (c.toNat - '0'.toNat) else none

/-- Parse a character list as a decimal natural number. -/
def natFromChars (cs : List Char) : Option Nat :=
  match cs with
  | [] => none
  | _ =>
    cs.foldl
      (fun acc c =>
        match acc, digitVal c with
        | some n, some d => some (n * 10 + d)
        | _, _ => none)
      (some 0)

/-- Whether the first list is a prefix of the second. -/
def leadsChars : List Char → List Char → Bool
  | [], _ => true
  | _ :: _, [] => false
  | a :: as, b :: bs => a = b && leadsChars as bs

/-- First value of a named header in receipt order. -/
def headerValue : Headers → String → Option String
  | [], _ => none
  | (n, v) :: t, name => if n = name then some v else headerValue t name

/-- Modelled from the spec (§4.2, §6 header contract): the Cache Policy
Parser's view of the `Cache-Control` header as a list of trimmed
directives. -/
def directives (hs : Headers) : List String :=
  match headerValue hs "cache-control" with
  | some v => (splitCommaAux v.data []).map (fun cs => String.mk (trimChars cs))
  | none => []

/-- Whether a bare directive (e.g. `no-store`) is present. -/
def hasDirective (hs : Headers) (d : String) : Bool :=
  (directives hs).any (fun x => x = d)

/-- The numeric parameter of a `name=N` directive (e.g. `max-age=300`). -/
def directiveParam (hs : Headers) (name : String) : Option Nat :=
  (directives hs).findSome? (fun d =>
    if leadsChars (name.data ++ ['=']) d.data then
      natFromChars (d.data.drop (name.data.length + 1))
    else none)

/-! ## Cache policy -/

/-- Modelled from the spec (§3): the derived `CachePolicy` snapshot. -/
structure CachePolicy where
  freshness_lifetime : Nat
  response_time : Nat
  age_at_storage : Nat
  must_revalidate : Bool
  no_store : Bool
  scope_private : Bool
  vary_headers : List String
  etag : Option String
  lastModified : Option String
deriving DecidableEq

/-- Modelled from the spec (§3, §6): per-client `CacheOptions` — `shared`
(default true) and the configurable cacheable-status-code set. -/
structure CacheOptions where
  shared : Bool
  cacheableStatuses : List Nat
deriving DecidableEq

/-- The default cacheable status set (§4.2): 200, 203, 300, 301, 410. -/
def defaultStatuses : List Nat := [200, 203, 300, 301, 410]

/-- Shared-cache defaults (§6: absent options imply `shared = true`). -/
def sharedOptions : CacheOptions := ⟨true, defaultStatuses⟩

/-- Options with `shared = false`, as the `default_mode_with_options` test
configures. -/
def privateOptions : CacheOptions := ⟨false, defaultStatuses⟩

/-- Modelled from the spec (§4.2): freshness lifetime — a shared cache honors
`s-maxage` first, explicit `max-age` wins over `Expires`, `Expires` (modelled
as a numeric timestamp) is used only absent `max-age`, and no directive at
all means lifetime 0. -/
def freshnessLifetimeOf (shared : Bool) (hs : Headers) (now : Nat) : Nat :=
  match (if shared then directiveParam hs "s-maxage" else none) with
  | some n => n
  | none =>
    match directiveParam hs "max-age" with
    | some n => n
    | none =>
      match (headerValue hs "expires").bind (fun v => natFromChars v.data) with
      | some t => t - now
      | none => 0

/-- Modelled from the spec (§4.2): the Cache Policy Parser.  Computes the
policy snapshot from the response headers at receipt time `now`:
`no-store` sets `no_store`; `must-revalidate`, `no-cache` and `Vary: *` set
`must_revalidate`; `private` records the private scope; the `Age` header
seeds `age_at_storage`; validators come from `ETag`/`Last-Modified`. -/
def makePolicy (opts : CacheOptions) (resp : Response) (now : Nat) : CachePolicy :=
  ⟨freshnessLifetimeOf opts.shared resp.headers now,
   now,
   ((headerValue resp.headers "age").bind (fun v => natFromChars v.data)).getD 0,
   hasDirective resp.headers "must-revalidate" || hasDirective resp.headers "no-cache"
     || (headerValue resp.headers "vary" == some "*"),
   hasDirective resp.headers "no-store",
   hasDirective resp.headers "private",
   match headerValue resp.headers "vary" with
   | some v => (splitCommaAux v.data []).map (fun cs => String.mk (trimChars cs))
   | none => [],
   headerValue resp.headers "etag",
   headerValue resp.headers "last-modified"⟩

/-- Whether the status code is in the configured cacheable set (§4.2). -/
def statusCacheable (opts : CacheOptions) (s : Nat) : Bool :=
  opts.cacheableStatuses.contains s

/-- Modelled from the spec (§4.2): normal cacheability — status in the
cacheable set, no `no-store`, and `private` only blocks a shared cache. -/
def isCacheable (opts : CacheOptions) (resp : Response) : Bool :=
  statusCacheable opts resp.status
    && !(hasDirective resp.headers "no-store")
    && !(hasDirective resp.headers "private" && opts.shared)

/-! ## Stored entries and the freshness evaluator -/

/-- Modelled from the spec (§3): the persisted `StoredEntry`. -/
structure StoredEntry where
  status : Nat
  headers : Headers
  body : List Nat
  requestTime : Nat
  responseTime : Nat
  policy : CachePolicy
deriving DecidableEq

/-- Build the entry persisted for a freshly received response (§3 lifecycle:
created on first cacheable response). -/
def entryFromResponse (opts : CacheOptions) (reqTime now : Nat) (resp : Response) :
    StoredEntry :=
  ⟨resp.status, resp.headers, resp.body, reqTime, now, makePolicy opts resp now⟩

/-- Replay a stored entry as the response handed to the caller. -/
def responseFromEntry (e : StoredEntry) : Response :=
  ⟨e.status, e.headers, e.body⟩

/-- The Freshness Evaluator's verdict (§4.3). -/
inductive Freshness where
  | Fresh
  | Stale
  | MustRevalidate
deriving DecidableEq

/-- Modelled from the spec (§3, §4.3): recomputed age is always
`now − response_time + age_at_storage`. -/
def cacheAge (p : CachePolicy) (now : Nat) : Nat :=
  now - p.response_time + p.age_at_storage

/-- Modelled from the spec (§4.3): the Freshness Evaluator.  `Fresh` iff
`age < freshness_lifetime` and not `must_revalidate`; `MustRevalidate` iff
the policy explicitly demands it even while age is within lifetime;
otherwise `Stale`. -/
def evaluateFreshness (p : CachePolicy) (now : Nat) : Freshness :=
  if p.must_revalidate then .MustRevalidate
  else if cacheAge p now < p.freshness_lifetime then .Fresh
  else .Stale

/-! ## The Cache Manager capability -/

/-- The store's contents, keyed by `CacheKey` (§6). -/
abbrev Store := List (CacheKey × StoredEntry)

/-- `get` on the underlying store. -/
def storeGet : Store → CacheKey → Option StoredEntry
  | [], _ => none
  | (k, e) :: t, key => if k = key then some e else storeGet t key

/-- `delete` on the underlying store. -/
def storeDelete : Store → CacheKey → Store
  | [], _ => []
  | (k, e) :: t, key =>
    if k = key then storeDelete t key else (k, e) :: storeDelete t key

/-- `put` on the underlying store: last-writer-wins overwrite (§5). -/
def storePut (s : Store) (key : CacheKey) (e : StoredEntry) : Store :=
  (key, e) :: storeDelete s key

/-- Which Cache Manager operations fail during a request (§4.4 failure
handling, §7 `StoreError`). -/
structure ManagerFlags where
  readFails : Bool
  writeFails : Bool
deriving DecidableEq

/-- The fully reliable Cache Manager. -/
def noFail : ManagerFlags := ⟨false, false⟩

/-- Modelled from the spec (§4.4): a failed read is treated as a miss. -/
def mgrGet (f : ManagerFlags) (s : Store) (key : CacheKey) : Option StoredEntry :=
  if f.readFails then none else storeGet s key

/-- Modelled from the spec (§4.4): a failed write is a best-effort no-op. -/
def mgrPut (f : ManagerFlags) (s : Store) (key : CacheKey) (e : StoredEntry) : Store :=
  if f.writeFails then s else storePut s key e

/-- Modelled from the spec (§4.4): a failed delete is a best-effort no-op. -/
def mgrDelete (f : ManagerFlags) (s : Store) (key : CacheKey) : Store :=
  if f.writeFails then s else storeDelete s key

/-! ## The Origin Fetcher capability and revalidation -/

/-- The Origin Fetcher capability (§6): `forward(Request)` either yields a
response or fails. -/
abbrev Origin := Request → Except Unit Response

/-- The cache modes (§3). -/
inductive CacheMode where
  | Default
  | NoStore
  | NoCache
  | ForceCache
  | OnlyIfCached
deriving DecidableEq

/-- Modelled from the spec (§4.4): the conditional revalidation request —
copy the original request, add `If-None-Match` from the stored ETag and/or
`If-Modified-Since` from the stored Last-Modified (both if both exist). -/
def conditionalRequest (req : Request) (e : StoredEntry) : Request :=
  ⟨req.method, req.url,
   req.headers
     ++ (match e.policy.etag with
         | some t => [("if-none-match", t)]
         | none => [])
     ++ (match e.policy.lastModified with
         | some t => [("if-modified-since", t)]
         | none => [])⟩

/-- Headers a 304 is meant to update: cache-metadata headers (§4.4: Date,
ETag, Expires, Cache-Control, etc.). -/
def isMetadataHeader (n : String) : Bool :=
  ["date", "etag", "expires", "cache-control", "last-modified", "age",
   "vary"].any (fun x => x = n)

/-- Replace the named header's value, or append it. -/
def setHeader (hs : Headers) (n v : String) : Headers :=
  if hs.any (fun p => p.1 = n) then
    hs.map (fun p => if p.1 = n then (n, v) else p)
  else hs ++ [(n, v)]

/-- Fold the 304's cache-metadata headers over the stored header list. -/
def mergeHeaders (stored new : Headers) : Headers :=
  (new.filter (fun p => isMetadataHeader p.1)).foldl
    (fun acc p => setHeader acc p.1 p.2) stored

/-- Modelled from the spec (§4.4): a 304 merges — stored body retained,
cache-metadata headers updated from the 304, policy recomputed,
`response_time` updated to now. -/
def merge304 (opts : CacheOptions) (e : StoredEntry) (resp : Response) (now : Nat) :
    StoredEntry :=
  ⟨e.status,
   mergeHeaders e.headers resp.headers,
   e.body,
   e.requestTime,
   now,
   makePolicy opts ⟨e.status, mergeHeaders e.headers resp.headers, e.body⟩ now⟩

/-- Modelled from the spec (§4.4): the synthetic "cache miss under
no-network policy" result for `OnlyIfCached` — a Gateway-Timeout-class
response, not an error. -/
def syntheticMissResponse : Response :=
  ⟨504, [("warning", "cache miss, no network allowed")], []⟩

/-! ## The Mode Engine -/

/-- What one request produces: the caller's result (a fetch failure
propagates as `Except.error`), the store afterwards, and how many times the
origin was contacted. -/
structure RunResult where
  response : Except Unit Response
  store : Store
  contacts : Nat

/-- Modelled from the spec (§4.4 Miss column): fetch from the origin and
store the response if it is cacheable. -/
def fetchAndStore (opts : CacheOptions) (f : ManagerFlags) (origin : Origin)
    (s : Store) (key : CacheKey) (req : Request) (now : Nat) : RunResult :=
  match origin req with
  | .error err => ⟨.error err, s, 1⟩
  | .ok resp =>
    if isCacheable opts resp then
      ⟨.ok resp, mgrPut f s key (entryFromResponse opts now now resp), 1⟩
    else ⟨.ok resp, s, 1⟩

/-- Modelled from the spec (§4.4, §4.5): the Revalidation Handler — send the
conditional request; a 304 merges and refreshes the entry, any other
cacheable status replaces it wholesale, a non-cacheable status removes it;
a fetch failure propagates. -/
def revalidateEntry (opts : CacheOptions) (f : ManagerFlags) (origin : Origin)
    (s : Store) (key : CacheKey) (req : Request) (e : StoredEntry) (now : Nat) :
    RunResult :=
  match origin (conditionalRequest req e) with
  | .error err => ⟨.error err, s, 1⟩
  | .ok resp =>
    if resp.status = 304 then
      let merged := merge304 opts e resp now
      ⟨.ok (responseFromEntry merged), mgrPut f s key merged, 1⟩
    else if isCacheable opts resp then
      ⟨.ok resp, mgrPut f s key (entryFromResponse opts now now resp), 1⟩
    else ⟨.ok resp, mgrDelete f s key, 1⟩

/-- Modelled from the spec (§4.4): the Mode Engine's per-request state
machine, following the decision table (Lookup result × Mode → Decision).
`NoStore` skips the lookup entirely and never writes; `OnlyIfCached` never
touches the origin and synthesizes a miss response; `ForceCache` stores as
long as the status is in the cacheable set and serves any hit ignoring
staleness; `Default` serves fresh hits and revalidates stale ones;
`NoCache` revalidates every hit even when fresh. -/
def runRequest (mode : CacheMode) (opts : CacheOptions) (f : ManagerFlags)
    (origin : Origin) (s : Store) (now : Nat) (req : Request) : RunResult :=
  let key := buildKey req
  match mode with
  | .NoStore =>
    match origin req with
    | .error err => ⟨.error err, s, 1⟩
    | .ok resp => ⟨.ok resp, s, 1⟩
  | .OnlyIfCached =>
    match mgrGet f s key with
    | none => ⟨.ok syntheticMissResponse, s, 0⟩
    | some e => ⟨.ok (responseFromEntry e), s, 0⟩
  | .ForceCache =>
    match mgrGet f s key with
    | some e => ⟨.ok (responseFromEntry e), s, 0⟩
    | none =>
      match origin req with
      | .error err => ⟨.error err, s, 1⟩
      | .ok resp =>
        if statusCacheable opts resp.status then
          ⟨.ok resp, mgrPut f s key (entryFromResponse opts now now resp), 1⟩
        else ⟨.ok resp, s, 1⟩
  | .Default =>
    match mgrGet f s key with
    | none => fetchAndStore opts f origin s key req now
    | some e =>
      match evaluateFreshness e.policy now with
      | .Fresh => ⟨.ok (responseFromEntry e), s, 0⟩
      | _ => revalidateEntry opts f origin s key req e now
  | .NoCache =>
    match mgrGet f s key with
    | none => fetchAndStore opts f origin s key req now
    | some e => revalidateEntry opts f origin s key req e now

end HttpCache

namespace HttpCache

/-! ## Concrete fixtures mirroring the test scenarios -/

/-- A cacheable public response, as the tests' `CACHEABLE_PUBLIC` mock. -/
def respPub : Response :=
  ⟨200, [("cache-control", "public, max-age=86400")], [104, 105]⟩

/-- A private response with an explicit lifetime, as `CACHEABLE_PRIVATE`. -/
def respPriv : Response :=
  ⟨200, [("cache-control", "private, max-age=86400")], [104, 105]⟩

/-- A private-looking response with no explicit freshness directive. -/
def respPlain : Response :=
  ⟨200, [("cache-control", "private")], [104, 105]⟩

/-- A 304 Not Modified answer carrying refreshed cache metadata. -/
def resp304 : Response :=
  ⟨304, [("cache-control", "public, max-age=100"), ("etag", "v2")], []⟩

/-- The test request: a GET for the mock server's root. -/
def req0 : Request :=
  ⟨"GET", "http://example.com/", []⟩

/-! ## Store lemmas -/

theorem storeGet_put_self (s : Store) (key : CacheKey) (e : StoredEntry) :
    storeGet (storePut s key e) key = some e := by
  simp [storePut, storeGet]

theorem storeGet_delete_self (s : Store) (key : CacheKey) :
    storeGet (storeDelete s key) key = none := by
  induction s with
  | nil => rfl
  | cons p t ih =>
    obtain ⟨k, e⟩ := p
    by_cases h : k = key <;> simp [storeDelete, storeGet, h, ih]

end HttpCache

namespace HttpCache

/-- C8: the Freshness Evaluator computes age as
`now − response_time + age_at_storage`, returns `Fresh` iff that age is
below the freshness lifetime and `must_revalidate` is false, returns
`MustRevalidate` exactly when the policy demands revalidation (even while
the age is within the lifetime), and returns `Stale` otherwise. -/
theorem evaluateFreshness_spec (p : CachePolicy) (now : Nat) :
    (evaluateFreshness p now = .Fresh ↔
      (now - p.response_time + p.age_at_storage < p.freshness_lifetime
        ∧ p.must_revalidate = false))
    ∧ (evaluateFreshness p now = .MustRevalidate ↔ p.must_revalidate = true)
    ∧ (evaluateFreshness p now = .Stale ↔
      (p.freshness_lifetime ≤ now - p.response_time + p.age_at_storage
        ∧ p.must_revalidate = false)) := by
  by_cases hm : p.must_revalidate <;>
    by_cases hage : now - p.response_time + p.age_at_storage < p.freshness_lifetime
  all_goals simp [evaluateFreshness, cacheAge, hm, hage]
  all_goals omega

/-- C2: in `NoStore` mode the engine never reads or writes the Cache
Manager — the store after the request is exactly the store before (so a key
absent before stays absent and no pre-existing entry is mutated), the
response is independent of the store's contents, and the origin is
contacted exactly once per request. -/
theorem noStore_bypasses_cache (opts : CacheOptions) (f : ManagerFlags)
    (origin : Origin) (s t : Store) (now : Nat) (req : Request) :
    (runRequest .NoStore opts f origin s now req).store = s
    ∧ (runRequest .NoStore opts f origin s now req).contacts = 1
    ∧ (runRequest .NoStore opts f origin s now req).response
      = (runRequest .NoStore opts f origin t now req).response := by
  unfold runRequest
  cases origin req <;> simp

/-- C5: in `OnlyIfCached` mode with no entry stored for the key, the engine
contacts the origin zero times, leaves the store untouched (so still no
entry), and returns the deterministic synthetic "no cached response" result
as an ordinary response, not an error. -/
theorem onlyIfCached_miss_synthetic (opts : CacheOptions) (f : ManagerFlags)
    (origin : Origin) (s : Store) (now : Nat) (req : Request)
    (hmiss : mgrGet f s (buildKey req) = none) :
    (runRequest .OnlyIfCached opts f origin s now req).response
      = .ok syntheticMissResponse
    ∧ (runRequest .OnlyIfCached opts f origin s now req).store = s
    ∧ (runRequest .OnlyIfCached opts f origin s now req).contacts = 0 := by
  simp [runRequest, hmiss]

/-- C5 witness: the `only_if_cached_mode::miss` scenario — empty store,
zero origin contacts, synthetic 504-class response. -/
theorem onlyIfCached_miss_synthetic_witness :
    (runRequest .OnlyIfCached sharedOptions noFail (fun _ => .ok respPub) [] 0
        req0).response = .ok syntheticMissResponse
    ∧ (runRequest .OnlyIfCached sharedOptions noFail (fun _ => .ok respPub) [] 0
        req0).store = []
    ∧ (runRequest .OnlyIfCached sharedOptions noFail (fun _ => .ok respPub) [] 0
        req0).contacts = 0 :=
  onlyIfCached_miss_synthetic sharedOptions noFail (fun _ => .ok respPub) [] 0 req0 rfl

end HttpCache

namespace HttpCache

/-- C1: in `Default` mode, when the origin's response is cacheable, the
first request contacts the origin exactly once and stores an entry under
the request's cache key; a subsequent request for the same key whose entry
the Freshness Evaluator still classifies `Fresh` (i.e. within the freshness
lifetime) contacts the origin zero times and returns the stored response —
in particular a byte-identical body. -/
theorem default_mode_fetch_once_then_serve (opts : CacheOptions)
    (origin : Origin) (s : Store) (now now2 : Nat) (req : Request) (resp : Response)
    (hmiss : storeGet s (buildKey req) = none)
    (horig : origin req = .ok resp)
    (hcc : isCacheable opts resp = true)
    (hfresh : evaluateFreshness (makePolicy opts resp now) now2 = .Fresh) :
    (runRequest .Default opts noFail origin s now req).contacts = 1
    ∧ storeGet (runRequest .Default opts noFail origin s now req).store (buildKey req)
      = some (entryFromResponse opts now now resp)
    ∧ (runRequest .Default opts noFail origin
        (runRequest .Default opts noFail origin s now req).store now2 req).contacts = 0
    ∧ (runRequest .Default opts noFail origin
        (runRequest .Default opts noFail origin s now req).store now2 req).response
      = .ok resp := by
  have hrun1 : runRequest .Default opts noFail origin s now req
      = ⟨.ok resp, storePut s (buildKey req) (entryFromResponse opts now now resp), 1⟩ := by
    simp [runRequest, mgrGet, noFail, hmiss, fetchAndStore, horig, hcc, mgrPut]
  rw [hrun1]
  refine ⟨rfl, storeGet_put_self _ _ _, ?_⟩
  have hget2 : storeGet (storePut s (buildKey req) (entryFromResponse opts now now resp))
      (buildKey req) = some (entryFromResponse opts now now resp) :=
    storeGet_put_self _ _ _
  have hpol : (entryFromResponse opts now now resp).policy = makePolicy opts resp now := rfl
  have hrun2 : runRequest .Default opts noFail origin
      (storePut s (buildKey req) (entryFromResponse opts now now resp)) now2 req
      = ⟨.ok (responseFromEntry (entryFromResponse opts now now resp)),
         storePut s (buildKey req) (entryFromResponse opts now now resp), 0⟩ := by
    simp [runRequest, mgrGet, noFail, hget2, hpol, hfresh]
  rw [hrun2]
  exact ⟨rfl, rfl⟩

/-- C1 witness: the `default_mode` test scenario — a public `max-age=86400`
response, empty store, hot pass one second later. -/
theorem default_mode_fetch_once_then_serve_witness :
    (runRequest .Default sharedOptions noFail (fun _ => .ok respPub) [] 0 req0).contacts = 1
    ∧ storeGet (runRequest .Default sharedOptions noFail (fun _ => .ok respPub) [] 0
        req0).store (buildKey req0) = some (entryFromResponse sharedOptions 0 0 respPub)
    ∧ (runRequest .Default sharedOptions noFail (fun _ => .ok respPub)
        (runRequest .Default sharedOptions noFail (fun _ => .ok respPub) [] 0 req0).store
        1 req0).contacts = 0
    ∧ (runRequest .Default sharedOptions noFail (fun _ => .ok respPub)
        (runRequest .Default sharedOptions noFail (fun _ => .ok respPub) [] 0 req0).store
        1 req0).response = .ok respPub :=
  default_mode_fetch_once_then_serve sharedOptions (fun _ => .ok respPub) [] 0 1 req0
    respPub rfl rfl (by decide) (by decide)

end HttpCache

namespace HttpCache

/-- C4: in `ForceCache` mode, the first request for a key stores an entry
whenever the response's status is in the cacheable set — normal
cacheability rules are not consulted — and the second request for the same
key is served from storage with zero origin contacts at any later time
`now2`, i.e. the freshness check is bypassed entirely. -/
theorem force_cache_stores_and_serves (opts : CacheOptions)
    (origin : Origin) (s : Store) (now now2 : Nat) (req : Request) (resp : Response)
    (hmiss : storeGet s (buildKey req) = none)
    (horig : origin req = .ok resp)
    (hstatus : statusCacheable opts resp.status = true) :
    (runRequest .ForceCache opts noFail origin s now req).contacts = 1
    ∧ storeGet (runRequest .ForceCache opts noFail origin s now req).store (buildKey req)
      = some (entryFromResponse opts now now resp)
    ∧ (runRequest .ForceCache opts noFail origin
        (runRequest .ForceCache opts noFail origin s now req).store now2 req).contacts = 0
    ∧ (runRequest .ForceCache opts noFail origin
        (runRequest .ForceCache opts noFail origin s now req).store now2 req).response
      = .ok resp := by
  have hrun1 : runRequest .ForceCache opts noFail origin s now req
      = ⟨.ok resp, storePut s (buildKey req) (entryFromResponse opts now now resp), 1⟩ := by
    simp [runRequest, mgrGet, noFail, hmiss, horig, hstatus, mgrPut]
  rw [hrun1]
  refine ⟨rfl, storeGet_put_self _ _ _, ?_⟩
  have hget2 : storeGet (storePut s (buildKey req) (entryFromResponse opts now now resp))
      (buildKey req) = some (entryFromResponse opts now now resp) :=
    storeGet_put_self _ _ _
  have hrun2 : runRequest .ForceCache opts noFail origin
      (storePut s (buildKey req) (entryFromResponse opts now now resp)) now2 req
      = ⟨.ok (responseFromEntry (entryFromResponse opts now now resp)),
         storePut s (buildKey req) (entryFromResponse opts now now resp), 0⟩ := by
    simp [runRequest, mgrGet, noFail, hget2]
  rw [hrun2]
  exact ⟨rfl, rfl⟩

/-- C4 witness: a private-looking response with no freshness directive —
normal rules reject it for a shared cache (`isCacheable` is false) and its
lifetime is 0, yet `ForceCache` stores it, and serves it a full day later
with zero origin contacts, the entry being long stale. -/
theorem force_cache_stores_and_serves_witness :
    isCacheable sharedOptions respPlain = false
    ∧ evaluateFreshness (entryFromResponse sharedOptions 0 0 respPlain).policy 86400
      = .Stale
    ∧ ((runRequest .ForceCache sharedOptions noFail (fun _ => .ok respPlain) [] 0
        req0).contacts = 1
    ∧ storeGet (runRequest .ForceCache sharedOptions noFail (fun _ => .ok respPlain)
        [] 0 req0).store (buildKey req0) = some (entryFromResponse sharedOptions 0 0 respPlain)
    ∧ (runRequest .ForceCache sharedOptions noFail (fun _ => .ok respPlain)
        (runRequest .ForceCache sharedOptions noFail (fun _ => .ok respPlain) [] 0
          req0).store 86400 req0).contacts = 0
    ∧ (runRequest .ForceCache sharedOptions noFail (fun _ => .ok respPlain)
        (runRequest .ForceCache sharedOptions noFail (fun _ => .ok respPlain) [] 0
          req0).store 86400 req0).response = .ok respPlain) :=
  ⟨by decide, by decide,
   force_cache_stores_and_serves sharedOptions (fun _ => .ok respPlain) [] 0 86400 req0
     respPlain rfl rfl (by decide)⟩

/-- C6: a key warmed by a prior `Default`-mode request (any cacheable
response) is served by `OnlyIfCached` with zero origin contacts at any
later time `now2` — whether the entry is by then fresh or stale — and the
returned body is exactly the stored body. -/
theorem only_if_cached_serves_warmed_entry (opts : CacheOptions)
    (origin : Origin) (s : Store) (now now2 : Nat) (req : Request) (resp : Response)
    (hmiss : storeGet s (buildKey req) = none)
    (horig : origin req = .ok resp)
    (hcc : isCacheable opts resp = true) :
    (runRequest .OnlyIfCached opts noFail origin
      (runRequest .Default opts noFail origin s now req).store now2 req).contacts = 0
    ∧ (runRequest .OnlyIfCached opts noFail origin
        (runRequest .Default opts noFail origin s now req).store now2 req).response
      = .ok (responseFromEntry (entryFromResponse opts now now resp))
    ∧ (responseFromEntry (entryFromResponse opts now now resp)).body = resp.body := by
  have hrun1 : runRequest .Default opts noFail origin s now req
      = ⟨.ok resp, storePut s (buildKey req) (entryFromResponse opts now now resp), 1⟩ := by
    simp [runRequest, mgrGet, noFail, hmiss, fetchAndStore, horig, hcc, mgrPut]
  rw [hrun1]
  have hget2 : storeGet (storePut s (buildKey req) (entryFromResponse opts now now resp))
      (buildKey req) = some (entryFromResponse opts now now resp) :=
    storeGet_put_self _ _ _
  have hrun2 : runRequest .OnlyIfCached opts noFail origin
      (storePut s (buildKey req) (entryFromResponse opts now now resp)) now2 req
      = ⟨.ok (responseFromEntry (entryFromResponse opts now now resp)),
         storePut s (buildKey req) (entryFromResponse opts now now resp), 0⟩ := by
    simp [runRequest, mgrGet, noFail, hget2]
  rw [hrun2]
  exact ⟨rfl, rfl, rfl⟩

/-- C6 witness: the `only_if_cached_mode::hit` scenario — warm with a
`Default`-mode request for the public response, then serve it via
`OnlyIfCached` a year later (long past `max-age=86400`, so stale) with
zero origin contacts and the stored body returned. -/
theorem only_if_cached_serves_warmed_entry_witness :
    (runRequest .OnlyIfCached sharedOptions noFail (fun _ => .ok respPub)
      (runRequest .Default sharedOptions noFail (fun _ => .ok respPub) [] 0 req0).store
      31536000 req0).contacts = 0
    ∧ (runRequest .OnlyIfCached sharedOptions noFail (fun _ => .ok respPub)
        (runRequest .Default sharedOptions noFail (fun _ => .ok respPub) [] 0 req0).store
        31536000 req0).response
      = .ok (responseFromEntry (entryFromResponse sharedOptions 0 0 respPub))
    ∧ (responseFromEntry (entryFromResponse sharedOptions 0 0 respPub)).body
      = respPub.body :=
  only_if_cached_serves_warmed_entry sharedOptions (fun _ => .ok respPub) [] 0 31536000
    req0 respPub rfl rfl (by decide)

end HttpCache

namespace HttpCache

/-- C10: in `Default` mode with `shared = false`, a response carrying the
`private` cache-control directive (status in the cacheable set, no
`no-store`) is stored — an entry exists for the key after the first
request — and a subsequent request still classified `Fresh` returns the
response byte-identically; with the same response under `shared = true`
nothing is stored, so `private` blocks caching only for a shared cache. -/
theorem default_private_cached_when_not_shared (origin : Origin) (s : Store)
    (now now2 : Nat) (req : Request) (resp : Response)
    (hmiss : storeGet s (buildKey req) = none)
    (horig : origin req = .ok resp)
    (hpriv : hasDirective resp.headers "private" = true)
    (hns : hasDirective resp.headers "no-store" = false)
    (hstatus : statusCacheable privateOptions resp.status = true)
    (hfresh : evaluateFreshness (makePolicy privateOptions resp now) now2 = .Fresh) :
    storeGet (runRequest .Default privateOptions noFail origin s now req).store
      (buildKey req) = some (entryFromResponse privateOptions now now resp)
    ∧ (runRequest .Default privateOptions noFail origin
        (runRequest .Default privateOptions noFail origin s now req).store now2
        req).response = .ok resp
    ∧ (runRequest .Default privateOptions noFail origin
        (runRequest .Default privateOptions noFail origin s now req).store now2
        req).contacts = 0
    ∧ storeGet (runRequest .Default sharedOptions noFail origin s now req).store
        (buildKey req) = none := by
  have hcc : isCacheable privateOptions resp = true := by
    simp [isCacheable, hstatus, hns, privateOptions]
    simpa [statusCacheable, privateOptions] using hstatus
  have hccs : isCacheable sharedOptions resp = false := by
    simp [isCacheable, hpriv, sharedOptions]
  have hrun1 : runRequest .Default privateOptions noFail origin s now req
      = ⟨.ok resp,
         storePut s (buildKey req) (entryFromResponse privateOptions now now resp), 1⟩ := by
    simp [runRequest, mgrGet, noFail, hmiss, fetchAndStore, horig, hcc, mgrPut]
  have hruns : runRequest .Default sharedOptions noFail origin s now req
      = ⟨.ok resp, s, 1⟩ := by
    simp [runRequest, mgrGet, noFail, hmiss, fetchAndStore, horig, hccs]
  rw [hrun1, hruns]
  have hget2 : storeGet
      (storePut s (buildKey req) (entryFromResponse privateOptions now now resp))
      (buildKey req) = some (entryFromResponse privateOptions now now resp) :=
    storeGet_put_self _ _ _
  have hpol : (entryFromResponse privateOptions now now resp).policy
      = makePolicy privateOptions resp now := rfl
  have hrun2 : runRequest .Default privateOptions noFail origin
      (storePut s (buildKey req) (entryFromResponse privateOptions now now resp)) now2 req
      = ⟨.ok (responseFromEntry (entryFromResponse privateOptions now now resp)),
         storePut s (buildKey req) (entryFromResponse privateOptions now now resp), 0⟩ := by
    simp [runRequest, mgrGet, noFail, hget2, hpol, hfresh]
  rw [hrun2]
  exact ⟨hget2, rfl, rfl, hmiss⟩

/-- C10 witness: the `default_mode_with_options` scenario — the
`CACHEABLE_PRIVATE` response under `shared = false` is stored and replayed
byte-identically one second later, while under the shared default it is
not stored. -/
theorem default_private_cached_when_not_shared_witness :
    storeGet (runRequest .Default privateOptions noFail (fun _ => .ok respPriv) [] 0
      req0).store (buildKey req0) = some (entryFromResponse privateOptions 0 0 respPriv)
    ∧ (runRequest .Default privateOptions noFail (fun _ => .ok respPriv)
        (runRequest .Default privateOptions noFail (fun _ => .ok respPriv) [] 0 req0).store
        1 req0).response = .ok respPriv
    ∧ (runRequest .Default privateOptions noFail (fun _ => .ok respPriv)
        (runRequest .Default privateOptions noFail (fun _ => .ok respPriv) [] 0 req0).store
        1 req0).contacts = 0
    ∧ storeGet (runRequest .Default sharedOptions noFail (fun _ => .ok respPriv) [] 0
        req0).store (buildKey req0) = none :=
  default_private_cached_when_not_shared (fun _ => .ok respPriv) [] 0 1 req0 respPriv
    rfl rfl (by decide) (by decide) (by decide) (by decide)

end HttpCache

namespace HttpCache

/-- C3: in `NoCache` mode every request contacts the origin exactly once —
a hit is always revalidated with a conditional fetch, even when the stored
entry is still fresh — and when the origin's answer is a cacheable
response (for a 304 the refreshed merged entry is kept), an entry remains
stored for the key afterwards. -/
theorem no_cache_revalidates_every_request (opts : CacheOptions)
    (origin : Origin) (s : Store) (now : Nat) (req : Request) (resp : Response)
    (horig : ∀ r, origin r = .ok resp)
    (hcc : isCacheable opts resp = true) :
    (runRequest .NoCache opts noFail origin s now req).contacts = 1
    ∧ (storeGet (runRequest .NoCache opts noFail origin s now req).store
        (buildKey req)).isSome = true := by
  cases hs : storeGet s (buildKey req) with
  | none =>
    simp [runRequest, mgrGet, noFail, hs, fetchAndStore, horig req, hcc, mgrPut,
      storeGet_put_self]
  | some e =>
    by_cases h304 : resp.status = 304
    · simp [runRequest, mgrGet, noFail, hs, revalidateEntry,
        horig (conditionalRequest req e), h304, mgrPut, storeGet_put_self]
    · simp [runRequest, mgrGet, noFail, hs, revalidateEntry,
        horig (conditionalRequest req e), h304, hcc, mgrPut, storeGet_put_self]

/-- C3 witness: the `no_cache_mode` scenario — the store already holds a
fresh entry for the key (stored at time 0, queried at time 1, well within
`max-age=86400`), yet the request still contacts the origin once, and an
entry remains stored afterwards. -/
theorem no_cache_revalidates_every_request_witness :
    evaluateFreshness (entryFromResponse sharedOptions 0 0 respPub).policy 1 = .Fresh
    ∧ ((runRequest .NoCache sharedOptions noFail (fun _ => .ok respPub)
        (storePut [] (buildKey req0) (entryFromResponse sharedOptions 0 0 respPub)) 1
        req0).contacts = 1
    ∧ (storeGet (runRequest .NoCache sharedOptions noFail (fun _ => .ok respPub)
        (storePut [] (buildKey req0) (entryFromResponse sharedOptions 0 0 respPub)) 1
        req0).store (buildKey req0)).isSome = true) :=
  ⟨by decide,
   no_cache_revalidates_every_request sharedOptions (fun _ => .ok respPub)
     (storePut [] (buildKey req0) (entryFromResponse sharedOptions 0 0 respPub)) 1 req0
     respPub (fun _ => rfl) (by decide)⟩

end HttpCache

namespace HttpCache

/-- C7: storing then revalidating via a 304 is a body-preserving
round-trip — when a stored entry is no longer `Fresh` and the origin
answers the conditional request with a 304, the engine keeps a merged
entry whose body is byte-identical to the stored body, whose headers are
the stored headers updated with the 304's cache-metadata headers, whose
policy is recomputed from those merged headers with `response_time` set to
the revalidation time, and serves that merged entry to the caller. -/
theorem store_then_304_revalidate_roundtrip (opts : CacheOptions)
    (origin : Origin) (s : Store) (now : Nat) (req : Request) (e : StoredEntry)
    (resp : Response)
    (hget : storeGet s (buildKey req) = some e)
    (hstale : evaluateFreshness e.policy now ≠ .Fresh)
    (horig : origin (conditionalRequest req e) = .ok resp)
    (h304 : resp.status = 304) :
    storeGet (runRequest .Default opts noFail origin s now req).store (buildKey req)
      = some (merge304 opts e resp now)
    ∧ (merge304 opts e resp now).body = e.body
    ∧ (merge304 opts e resp now).headers = mergeHeaders e.headers resp.headers
    ∧ (merge304 opts e resp now).policy
      = makePolicy opts ⟨e.status, mergeHeaders e.headers resp.headers, e.body⟩ now
    ∧ (merge304 opts e resp now).policy.response_time = now
    ∧ (merge304 opts e resp now).responseTime = now
    ∧ (runRequest .Default opts noFail origin s now req).response
      = .ok (responseFromEntry (merge304 opts e resp now)) := by
  have hrun : runRequest .Default opts noFail origin s now req
      = ⟨.ok (responseFromEntry (merge304 opts e resp now)),
         storePut s (buildKey req) (merge304 opts e resp now), 1⟩ := by
    cases hf : evaluateFreshness e.policy now with
    | Fresh => exact absurd hf hstale
    | Stale =>
      simp [runRequest, mgrGet, noFail, hget, hf, revalidateEntry, horig, h304, mgrPut]
    | MustRevalidate =>
      simp [runRequest, mgrGet, noFail, hget, hf, revalidateEntry, horig, h304, mgrPut]
  rw [hrun]
  exact ⟨storeGet_put_self _ _ _, rfl, rfl, rfl, rfl, rfl, rfl⟩

/-- C7 witness: an entry stored at time 0 from the public `max-age=86400`
response is stale at time 100000; a 304 carrying fresh cache metadata
(`max-age=100`, a new ETag) yields a merged entry with the original body,
the updated metadata headers, and `response_time` 100000. -/
theorem store_then_304_revalidate_roundtrip_witness :
    evaluateFreshness (entryFromResponse sharedOptions 0 0 respPub).policy 100000
      ≠ .Fresh
    ∧ (storeGet (runRequest .Default sharedOptions noFail (fun _ => .ok resp304)
        (storePut [] (buildKey req0) (entryFromResponse sharedOptions 0 0 respPub))
        100000 req0).store (buildKey req0)
      = some (merge304 sharedOptions (entryFromResponse sharedOptions 0 0 respPub)
          resp304 100000)
    ∧ (merge304 sharedOptions (entryFromResponse sharedOptions 0 0 respPub) resp304
        100000).body = (entryFromResponse sharedOptions 0 0 respPub).body
    ∧ (merge304 sharedOptions (entryFromResponse sharedOptions 0 0 respPub) resp304
        100000).headers
      = mergeHeaders (entryFromResponse sharedOptions 0 0 respPub).headers resp304.headers
    ∧ (merge304 sharedOptions (entryFromResponse sharedOptions 0 0 respPub) resp304
        100000).policy
      = makePolicy sharedOptions
          ⟨(entryFromResponse sharedOptions 0 0 respPub).status,
           mergeHeaders (entryFromResponse sharedOptions 0 0 respPub).headers
             resp304.headers,
           (entryFromResponse sharedOptions 0 0 respPub).body⟩ 100000
    ∧ (merge304 sharedOptions (entryFromResponse sharedOptions 0 0 respPub) resp304
        100000).policy.response_time = 100000
    ∧ (merge304 sharedOptions (entryFromResponse sharedOptions 0 0 respPub) resp304
        100000).responseTime = 100000
    ∧ (runRequest .Default sharedOptions noFail (fun _ => .ok resp304)
        (storePut [] (buildKey req0) (entryFromResponse sharedOptions 0 0 respPub))
        100000 req0).response
      = .ok (responseFromEntry (merge304 sharedOptions
          (entryFromResponse sharedOptions 0 0 respPub) resp304 100000))) :=
  ⟨by decide,
   store_then_304_revalidate_roundtrip sharedOptions (fun _ => .ok resp304)
     (storePut [] (buildKey req0) (entryFromResponse sharedOptions 0 0 respPub)) 100000
     req0 (entryFromResponse sharedOptions 0 0 respPub) resp304
     (storeGet_put_self _ _ _) (by decide) rfl rfl⟩

end HttpCache

namespace HttpCache

/-- The Cache Manager read path never inspects the write-failure flag. -/
theorem mgrGet_write_flag_irrelevant (rf b b2 : Bool) (s : Store) (k : CacheKey) :
    mgrGet ⟨rf, b⟩ s k = mgrGet ⟨rf, b2⟩ s k := rfl

/-- A write failure is a best-effort no-op: the caller's response and the
origin contact count are unchanged, and the store is left exactly as it
was. -/
theorem runRequest_writeFail_noop (mode : CacheMode) (opts : CacheOptions)
    (origin : Origin) (s : Store) (now : Nat) (req : Request) (rf : Bool) :
    (runRequest mode opts ⟨rf, true⟩ origin s now req).response
      = (runRequest mode opts ⟨rf, false⟩ origin s now req).response
    ∧ (runRequest mode opts ⟨rf, true⟩ origin s now req).store = s
    ∧ (runRequest mode opts ⟨rf, true⟩ origin s now req).contacts
      = (runRequest mode opts ⟨rf, false⟩ origin s now req).contacts := by
  cases mode with
  | NoStore => cases horig : origin req <;> simp [runRequest, horig]
  | OnlyIfCached =>
    cases h : mgrGet ⟨rf, false⟩ s (buildKey req) <;>
      simp [runRequest, h, (mgrGet_write_flag_irrelevant rf true false s
        (buildKey req)).trans h]
  | ForceCache =>
    cases h : mgrGet ⟨rf, false⟩ s (buildKey req) with
    | some e =>
      simp [runRequest, h, (mgrGet_write_flag_irrelevant rf true false s
        (buildKey req)).trans h]
    | none =>
      have h1 := (mgrGet_write_flag_irrelevant rf true false s (buildKey req)).trans h
      cases horig : origin req with
      | error err => simp [runRequest, h, h1, horig]
      | ok resp =>
        by_cases hst : statusCacheable opts resp.status <;>
          simp [runRequest, h, h1, horig, hst, mgrPut]
  | Default =>
    cases h : mgrGet ⟨rf, false⟩ s (buildKey req) with
    | none =>
      have h1 := (mgrGet_write_flag_irrelevant rf true false s (buildKey req)).trans h
      cases horig : origin req with
      | error err => simp [runRequest, h, h1, horig, fetchAndStore]
      | ok resp =>
        by_cases hcc : isCacheable opts resp <;>
          simp [runRequest, h, h1, horig, fetchAndStore, hcc, mgrPut]
    | some e =>
      have h1 := (mgrGet_write_flag_irrelevant rf true false s (buildKey req)).trans h
      cases hf : evaluateFreshness e.policy now with
      | Fresh => simp [runRequest, h, h1, hf]
      | Stale =>
        cases horig : origin (conditionalRequest req e) with
        | error err => simp [runRequest, h, h1, hf, revalidateEntry, horig]
        | ok resp =>
          by_cases h304 : resp.status = 304
          · simp [runRequest, h, h1, hf, revalidateEntry, horig, h304, mgrPut]
          · by_cases hcc : isCacheable opts resp <;>
              simp [runRequest, h, h1, hf, revalidateEntry, horig, h304, hcc,
                mgrPut, mgrDelete]
      | MustRevalidate =>
        cases horig : origin (conditionalRequest req e) with
        | error err => simp [runRequest, h, h1, hf, revalidateEntry, horig]
        | ok resp =>
          by_cases h304 : resp.status = 304
          · simp [runRequest, h, h1, hf, revalidateEntry, horig, h304, mgrPut]
          · by_cases hcc : isCacheable opts resp <;>
              simp [runRequest, h, h1, hf, revalidateEntry, horig, h304, hcc,
                mgrPut, mgrDelete]
  | NoCache =>
    cases h : mgrGet ⟨rf, false⟩ s (buildKey req) with
    | none =>
      have h1 := (mgrGet_write_flag_irrelevant rf true false s (buildKey req)).trans h
      cases horig : origin req with
      | error err => simp [runRequest, h, h1, horig, fetchAndStore]
      | ok resp =>
        by_cases hcc : isCacheable opts resp <;>
          simp [runRequest, h, h1, horig, fetchAndStore, hcc, mgrPut]
    | some e =>
      have h1 := (mgrGet_write_flag_irrelevant rf true false s (buildKey req)).trans h
      cases horig : origin (conditionalRequest req e) with
      | error err => simp [runRequest, h, h1, revalidateEntry, horig]
      | ok resp =>
        by_cases h304 : resp.status = 304
        · simp [runRequest, h, h1, revalidateEntry, horig, h304, mgrPut]
        · by_cases hcc : isCacheable opts resp <;>
            simp [runRequest, h, h1, revalidateEntry, horig, h304, hcc,
              mgrPut, mgrDelete]

/-- A read failure behaves exactly like a miss: the caller's response and
the origin contact count match a run against any store with no entry for
the key. -/
theorem runRequest_readFail_as_miss (mode : CacheMode) (opts : CacheOptions)
    (origin : Origin) (s t : Store) (now : Nat) (req : Request) (wf : Bool)
    (ht : storeGet t (buildKey req) = none) :
    (runRequest mode opts ⟨true, wf⟩ origin s now req).response
      = (runRequest mode opts ⟨false, wf⟩ origin t now req).response
    ∧ (runRequest mode opts ⟨true, wf⟩ origin s now req).contacts
      = (runRequest mode opts ⟨false, wf⟩ origin t now req).contacts := by
  have h1 : mgrGet ⟨true, wf⟩ s (buildKey req) = none := by simp [mgrGet]
  have h2 : mgrGet ⟨false, wf⟩ t (buildKey req) = none := by simp [mgrGet, ht]
  cases mode with
  | NoStore => cases horig : origin req <;> simp [runRequest, horig]
  | OnlyIfCached => simp [runRequest, h1, h2]
  | ForceCache =>
    cases horig : origin req with
    | error err => simp [runRequest, h1, h2, horig]
    | ok resp =>
      by_cases hst : statusCacheable opts resp.status <;>
        simp [runRequest, h1, h2, horig, hst, mgrPut]
  | Default =>
    cases horig : origin req with
    | error err => simp [runRequest, h1, h2, horig, fetchAndStore]
    | ok resp =>
      by_cases hcc : isCacheable opts resp <;>
        simp [runRequest, h1, h2, horig, fetchAndStore, hcc, mgrPut]
  | NoCache =>
    cases horig : origin req with
    | error err => simp [runRequest, h1, h2, horig, fetchAndStore]
    | ok resp =>
      by_cases hcc : isCacheable opts resp <;>
        simp [runRequest, h1, h2, horig, fetchAndStore, hcc, mgrPut]

/-- C9: Cache Manager failures never prevent a response from reaching the
caller — for every request (origin successes included), a failed write is
a best-effort no-op (same response, same contact count, store untouched)
and a failed read is treated exactly as a cache miss (same response and
contact count as running against a store with the key absent) — while an
Origin Fetcher failure propagates: if the key misses and the fetch fails,
or if a stored entry is non-fresh and the revalidation fetch fails, the
engine returns the fetch error to the caller. -/
theorem storage_nonfatal_fetch_propagates (mode : CacheMode) (opts : CacheOptions)
    (origin : Origin) (s : Store) (now : Nat) (req : Request) (rf wf : Bool)
    (e : StoredEntry) :
    ((runRequest mode opts ⟨rf, true⟩ origin s now req).response
      = (runRequest mode opts ⟨rf, false⟩ origin s now req).response
    ∧ (runRequest mode opts ⟨rf, true⟩ origin s now req).store = s
    ∧ (runRequest mode opts ⟨rf, true⟩ origin s now req).contacts
      = (runRequest mode opts ⟨rf, false⟩ origin s now req).contacts)
    ∧ ((runRequest mode opts ⟨true, wf⟩ origin s now req).response
      = (runRequest mode opts ⟨false, wf⟩ origin (storeDelete s (buildKey req)) now
          req).response
    ∧ (runRequest mode opts ⟨true, wf⟩ origin s now req).contacts
      = (runRequest mode opts ⟨false, wf⟩ origin (storeDelete s (buildKey req)) now
          req).contacts)
    ∧ (storeGet s (buildKey req) = none → origin req = .error () →
        (runRequest .Default opts noFail origin s now req).response = .error ())
    ∧ (storeGet s (buildKey req) = some e →
        evaluateFreshness e.policy now ≠ .Fresh →
        origin (conditionalRequest req e) = .error () →
        (runRequest .Default opts noFail origin s now req).response = .error ()) := by
  refine ⟨runRequest_writeFail_noop mode opts origin s now req rf,
    runRequest_readFail_as_miss mode opts origin s (storeDelete s (buildKey req)) now
      req wf (storeGet_delete_self s (buildKey req)), ?_, ?_⟩
  · intro hmiss horigf
    simp [runRequest, mgrGet, noFail, hmiss, fetchAndStore, horigf]
  · intro hget hstale horigc
    cases hf : evaluateFreshness e.policy now with
    | Fresh => exact absurd hf hstale
    | Stale =>
      simp [runRequest, mgrGet, noFail, hget, hf, revalidateEntry, horigc]
    | MustRevalidate =>
      simp [runRequest, mgrGet, noFail, hget, hf, revalidateEntry, horigc]

end HttpCache

namespace HttpCache

/-- C9 witness: a successful origin and an empty store — the run whose
write fails still returns the successful response `.ok respPub` to the
caller while leaving the store untouched and matching the reliable run's
response and contact count, the read-failure run matches the miss run,
and the two fetch-propagation implications are instantiated at the same
concrete inputs. -/
theorem storage_nonfatal_fetch_propagates_witness :
    (runRequest .Default sharedOptions ⟨false, true⟩ (fun _ => .ok respPub) [] 0
        req0).response = .ok respPub
    ∧ (((runRequest .Default sharedOptions ⟨false, true⟩ (fun _ => .ok respPub) [] 0
        req0).response
      = (runRequest .Default sharedOptions ⟨false, false⟩ (fun _ => .ok respPub) [] 0
          req0).response
    ∧ (runRequest .Default sharedOptions ⟨false, true⟩ (fun _ => .ok respPub) [] 0
        req0).store = []
    ∧ (runRequest .Default sharedOptions ⟨false, true⟩ (fun _ => .ok respPub) [] 0
        req0).contacts
      = (runRequest .Default sharedOptions ⟨false, false⟩ (fun _ => .ok respPub) [] 0
          req0).contacts)
    ∧ ((runRequest .Default sharedOptions ⟨true, true⟩ (fun _ => .ok respPub) [] 0
        req0).response
      = (runRequest .Default sharedOptions ⟨false, true⟩ (fun _ => .ok respPub)
          (storeDelete [] (buildKey req0)) 0 req0).response
    ∧ (runRequest .Default sharedOptions ⟨true, true⟩ (fun _ => .ok respPub) [] 0
        req0).contacts
      = (runRequest .Default sharedOptions ⟨false, true⟩ (fun _ => .ok respPub)
          (storeDelete [] (buildKey req0)) 0 req0).contacts)
    ∧ (storeGet [] (buildKey req0) = none
      → (Except.ok respPub : Except Unit Response) = .error ()
      → (runRequest .Default sharedOptions noFail (fun _ => .ok respPub) [] 0
          req0).response = .error ())
    ∧ (storeGet [] (buildKey req0) = some (entryFromResponse sharedOptions 0 0 respPub)
      → evaluateFreshness (entryFromResponse sharedOptions 0 0 respPub).policy 0
        ≠ .Fresh
      → (Except.ok respPub : Except Unit Response) = .error ()
      → (runRequest .Default sharedOptions noFail (fun _ => .ok respPub) [] 0
          req0).response = .error ())) :=
  ⟨rfl,
   storage_nonfatal_fetch_propagates .Default sharedOptions (fun _ => .ok respPub) [] 0
     req0 false true (entryFromResponse sharedOptions 0 0 respPub)⟩

end HttpCache
